import Mathlib

/-!
# Verification of the cape mesh-serializer fragment

The repository fragment (`src/cape/pc_Tri.h`, `src/cape/src/_capemodule.c`)
declares a family of mesh-file writer functions (`pc_WriteTri`,
`pc_WriteCompID`, `pc_WriteTriQ`, `pc_WriteSurf`, `pc_WriteTriSTL`, and the
four binary variants `pc_WriteTri_b4 / lb4 / b8 / lb8`) together with their
docstrings and the module method table.  The bodies of the writers are not
part of the fragment, so the encoders below are modelled from the spec
(`spec.md`), faithful to its contracts; the docstring declarations themselves
(argument lists, dtypes, destination file names) are embedded directly from
`pc_Tri.h`.

Modelling conventions:
* An ASCII output file is modelled at the token level: a file is a list of
  lines, each line a list of integer tokens (`Line := List Int`).  The spec
  (§9) explicitly leaves the exact decimal text formatting open, so the
  token level is the level at which its contracts are stated.  Float64
  coordinate and state values are modelled as exact integer payloads
  (`Coord := Int`): the encoders copy values, they never compute with them.
* A binary output file is a list of bytes (`List Nat`, each `< 256`);
  float values appear as their fixed-width bit patterns (`Nat`), since
  IEEE-754 conversion itself is outside the embedding.
* A writer that fails validation returns `Except.error` carrying the error
  kind and no output lines/bytes at all, which models the spec's fail-fast
  requirement that validation errors are detected before any byte is
  written (§4.4, §7).
-/

namespace Cape

/-- Error kinds of the spec's error model (§7).  `IOError` concerns the host
file system, which is outside the embedding. -/
inductive Err where
  | dimensionMismatch
  | indexOutOfRange
  deriving DecidableEq

/-- Model of a float64 value: the exact numeric payload. -/
abbrev Coord := Int

/-- A node: three coordinates (spec §3, Node set). -/
abbrev Node := Coord × Coord × Coord

/-- A triangle: three 0-based node indices (spec §3, Triangle set). -/
abbrev Tri := Nat × Nat × Nat

/-- A quadrangle: four 0-based node indices (spec §3, Quad set). -/
abbrev Quad := Nat × Nat × Nat × Nat

/-- One line of an ASCII output file, as its integer tokens. -/
abbrev Line := List Int

/-- Index invariant for one triangle: every index in `[0, nNode)`. -/
abbrev triValid (n : Nat) (t : Tri) : Prop :=
  t.1 < n ∧ t.2.1 < n ∧ t.2.2 < n

/-- Index invariant for a triangle set (spec §3). -/
abbrev trisValid (n : Nat) (T : List Tri) : Prop := ∀ t ∈ T, triValid n t

/-- Index invariant for one quadrangle. -/
abbrev quadValid (n : Nat) (q : Quad) : Prop :=
  q.1 < n ∧ q.2.1 < n ∧ q.2.2.1 < n ∧ q.2.2.2 < n

/-- Index invariant for a quad set (spec §3). -/
abbrev quadsValid (n : Nat) (Q : List Quad) : Prop := ∀ q ∈ Q, quadValid n q

/-- The ASCII line holding one node's three coordinates. -/
def nodeLine (p : Node) : Line := [p.1, p.2.1, p.2.2]

/-- The ASCII line holding one triangle's three node indices, converted
0-based (internal) to 1-based (file) as spec §3 requires. -/
def triLine (t : Tri) : Line :=
  [(t.1 : Int) + 1, (t.2.1 : Int) + 1, (t.2.2 : Int) + 1]

/-- The ASCII line holding one quadrangle's four node indices, 1-based. -/
def quadLine (q : Quad) : Line :=
  [(q.1 : Int) + 1, (q.2.1 : Int) + 1, (q.2.2.1 : Int) + 1, (q.2.2.2 : Int) + 1]

/-- The ASCII triangulation layout of spec §4.1: a header line with `nNode`
and `nTri`, then `nNode` coordinate lines, then `nTri` connectivity lines. -/
def triAscLines (P : List Node) (T : List Tri) : List Line :=
  [[(P.length : Int), (T.length : Int)]] ++ P.map nodeLine ++ T.map triLine

/-- Modelled from the spec: the body of `pc_WriteTri` is not in the fragment
(only its declaration and docstring in `pc_Tri.h`).  Per spec §4.1 and §7 it
validates every triangle index against `[0, nNode)` and, on success, produces
the ASCII triangulation layout; on a bad index it fails fast with no output. -/
def pc_WriteTri (P : List Node) (T : List Tri) : Except Err (List Line) :=
  if trisValid P.length T then
    .ok (triAscLines P T)
  else
    .error .indexOutOfRange

/-- Read back one coordinate line. -/
def parseNodeLine : Line → Option Node
  | [x, y, z] => some (x, y, z)
  | _ => none

/-- Read back one connectivity line, converting the 1-based file indices to
0-based internal indices. -/
def parseTriLine : Line → Option Tri
  | [a, b, c] =>
      if 1 ≤ a ∧ 1 ≤ b ∧ 1 ≤ c then
        some ((a - 1).toNat, (b - 1).toNat, (c - 1).toNat)
      else
        none
  | _ => none

/-- Read back one quadrangle connectivity line (1-based to 0-based). -/
def parseQuadLine : Line → Option Quad
  | [a, b, c, d] =>
      if 1 ≤ a ∧ 1 ≤ b ∧ 1 ≤ c ∧ 1 ≤ d then
        some ((a - 1).toNat, (b - 1).toNat, (c - 1).toNat, (d - 1).toNat)
      else
        none
  | _ => none

/-- Read back one single-integer line (component ID or BC flag). -/
def parseIntLine : Line → Option Int
  | [c] => some c
  | _ => none

/-- Parse a counted block of lines: apply `p` to the first `k` lines and
return the parsed values together with the remaining lines. -/
def readList {α : Type} (p : Line → Option α) : Nat → List Line → Option (List α × List Line)
  | 0, ls => some ([], ls)
  | _ + 1, [] => none
  | k + 1, l :: ls =>
      match p l with
      | none => none
      | some a =>
          match readList p k ls with
          | none => none
          | some (as, rest) => some (a :: as, rest)

/-- A conforming reader for the ASCII triangulation format of spec §4.1:
header counts, `nNode` coordinate lines, `nTri` connectivity lines, nothing
after. -/
def readTri (ls : List Line) : Option (List Node × List Tri) :=
  match ls with
  | [n, m] :: rest =>
      if 0 ≤ n ∧ 0 ≤ m then
        match readList parseNodeLine n.toNat rest with
        | none => none
        | some (ns, r1) =>
            match readList parseTriLine m.toNat r1 with
            | none => none
            | some (ts, r2) => if r2 = [] then some (ns, ts) else none
      else none
  | _ => none

theorem readList_map_append {α : Type} (p : Line → Option α) (f : α → Line) :
    ∀ (A : List α) (rest : List Line), (∀ a ∈ A, p (f a) = some a) →
      readList p A.length (A.map f ++ rest) = some (A, rest)
  | [], _, _ => rfl
  | a :: A, rest, h => by
      have ha := h a (by simp)
      have hA := readList_map_append p f A rest (fun x hx => h x (by simp [hx]))
      simp only [List.map_cons, List.length_cons, List.cons_append, readList, ha, hA,
        List.append_eq]

theorem parseNodeLine_nodeLine (p : Node) : parseNodeLine (nodeLine p) = some p := rfl

theorem parseTriLine_triLine (t : Tri) : parseTriLine (triLine t) = some t := by
  show parseTriLine [(t.1 : Int) + 1, (t.2.1 : Int) + 1, (t.2.2 : Int) + 1] = some t
  rw [parseTriLine, if_pos (by refine ⟨?_, ?_, ?_⟩ <;> omega)]
  have h1 : ((t.1 : Int) + 1 - 1).toNat = t.1 := by omega
  have h2 : ((t.2.1 : Int) + 1 - 1).toNat = t.2.1 := by omega
  have h3 : ((t.2.2 : Int) + 1 - 1).toNat = t.2.2 := by omega
  rw [h1, h2, h3]

theorem parseQuadLine_quadLine (q : Quad) : parseQuadLine (quadLine q) = some q := by
  show parseQuadLine
      [(q.1 : Int) + 1, (q.2.1 : Int) + 1, (q.2.2.1 : Int) + 1, (q.2.2.2 : Int) + 1] = some q
  rw [parseQuadLine, if_pos (by refine ⟨?_, ?_, ?_, ?_⟩ <;> omega)]
  have h1 : ((q.1 : Int) + 1 - 1).toNat = q.1 := by omega
  have h2 : ((q.2.1 : Int) + 1 - 1).toNat = q.2.1 := by omega
  have h3 : ((q.2.2.1 : Int) + 1 - 1).toNat = q.2.2.1 := by omega
  have h4 : ((q.2.2.2 : Int) + 1 - 1).toNat = q.2.2.2 := by omega
  rw [h1, h2, h3, h4]

theorem readTri_triAscLines (P : List Node) (T : List Tri) :
    readTri (triAscLines P T) = some (P, T) := by
  have h1 : readList parseNodeLine P.length (P.map nodeLine ++ T.map triLine) =
      some (P, T.map triLine) :=
    readList_map_append parseNodeLine nodeLine P (T.map triLine)
      (fun a _ => parseNodeLine_nodeLine a)
  have h2 : readList parseTriLine T.length (T.map triLine) = some (T, []) := by
    have h := readList_map_append parseTriLine triLine T []
      (fun a _ => parseTriLine_triLine a)
    simpa using h
  simp [readTri, triAscLines, h1, h2]

/-- C1: for every valid (nodes, triangles) pair, `pc_WriteTri` succeeds, the
header line of its output holds exactly `P.length` and `T.length`, and
re-parsing the output with the conforming reader `readTri` recovers the node
coordinates and the triangle indices, the indices having gone 0-based →
1-based (in `triLine`) and back (in `parseTriLine`) consistently. -/
theorem C1_writeTri_roundTrip (P : List Node) (T : List Tri)
    (h : trisValid P.length T) :
    pc_WriteTri P T = .ok (triAscLines P T) ∧
      (triAscLines P T).headD [] = [(P.length : Int), (T.length : Int)] ∧
      readTri (triAscLines P T) = some (P, T) := by
  refine ⟨?_, ?_, readTri_triAscLines P T⟩
  · rw [pc_WriteTri, if_pos h]
  · simp [triAscLines]

/-- Witness for C1 on the unit-square mesh of spec §8. -/
theorem C1_writeTri_roundTrip_witness :
    trisValid ([((0:Int),(0:Int),(0:Int)), (1,0,0), (1,1,0), (0,1,0)] : List Node).length
        [((0:Nat),(1:Nat),(2:Nat)), (0,2,3)] ∧
      pc_WriteTri [((0:Int),(0:Int),(0:Int)), (1,0,0), (1,1,0), (0,1,0)]
          [((0:Nat),(1:Nat),(2:Nat)), (0,2,3)] =
        .ok (triAscLines [((0:Int),(0:Int),(0:Int)), (1,0,0), (1,1,0), (0,1,0)]
          [((0:Nat),(1:Nat),(2:Nat)), (0,2,3)]) ∧
      readTri (triAscLines [((0:Int),(0:Int),(0:Int)), (1,0,0), (1,1,0), (0,1,0)]
          [((0:Nat),(1:Nat),(2:Nat)), (0,2,3)]) =
        some ([((0:Int),(0:Int),(0:Int)), (1,0,0), (1,1,0), (0,1,0)],
          [((0:Nat),(1:Nat),(2:Nat)), (0,2,3)]) := by
  refine ⟨by decide, ?_, ?_⟩
  · exact (C1_writeTri_roundTrip _ _ (by decide)).1
  · exact (C1_writeTri_roundTrip _ _ (by decide)).2.2

/-- C4: if some triangle references a node index outside `[0, nNode)`,
`pc_WriteTri` fails with `IndexOutOfRange` and returns no output lines at
all (in this embedding a failing writer produces no file content: the
`Except.error` result carries no lines). -/
theorem C4_writeTri_badIndex (P : List Node) (T : List Tri)
    (h : ¬ trisValid P.length T) :
    pc_WriteTri P T = .error .indexOutOfRange := by
  rw [pc_WriteTri, if_neg h]

/-- Witness for C4: a single triangle referencing node 0 of an empty node
set is rejected. -/
theorem C4_writeTri_badIndex_witness :
    ¬ trisValid ([] : List Node).length [((0:Nat),(0:Nat),(0:Nat))] ∧
      pc_WriteTri [] [((0:Nat),(0:Nat),(0:Nat))] = .error .indexOutOfRange := by
  exact ⟨by decide, C4_writeTri_badIndex [] [((0:Nat),(0:Nat),(0:Nat))] (by decide)⟩

/-- The ASCII line holding one component ID or BC flag. -/
def intLine (c : Int) : Line := [c]

theorem parseIntLine_intLine (c : Int) : parseIntLine (intLine c) = some c := rfl

/-- The surface-file layout of spec §4.4: a header with the three counts,
then node block, triangle connectivity block, triangle component-ID block,
triangle BC-flag block, quad connectivity block, quad component-ID block,
quad BC-flag block, in that fixed order.  With `nQuad = 0` the quad blocks
contribute no lines but are still part of the layout, and the header carries
their count 0. -/
def surfLines (P : List Node) (T : List Tri) (CT BCT : List Int)
    (Q : List Quad) (CQ BCQ : List Int) : List Line :=
  [[(P.length : Int), (T.length : Int), (Q.length : Int)]] ++
    P.map nodeLine ++ T.map triLine ++ CT.map intLine ++ BCT.map intLine ++
    Q.map quadLine ++ CQ.map intLine ++ BCQ.map intLine

/-- Modelled from the spec: the body of `pc_WriteSurf` is not in the fragment
(only its declaration and docstring in `pc_Tri.h`).  Per spec §4.4 it first
validates all four tag-vector lengths against their owning element counts
(fail-fast, before any output), then the node-index invariants, and only then
produces the surface layout.  The docstring's `blds`/`bldel` arguments are
not described by the spec and are not part of the claims settled against this
model (see the embedded call signature `doc_WriteSurf_call`). -/
def pc_WriteSurf (P : List Node) (T : List Tri) (CT BCT : List Int)
    (Q : List Quad) (CQ BCQ : List Int) : Except Err (List Line) :=
  if CT.length = T.length ∧ BCT.length = T.length ∧
      CQ.length = Q.length ∧ BCQ.length = Q.length then
    if trisValid P.length T ∧ quadsValid P.length Q then
      .ok (surfLines P T CT BCT Q CQ BCQ)
    else
      .error .indexOutOfRange
  else
    .error .dimensionMismatch

/-- A conforming reader for the surface layout: it always expects all seven
blocks, in the fixed order, with the counts taken from the header — no
special-casing of `nQuad = 0`. -/
def readSurf (ls : List Line) :
    Option (List Node × List Tri × List Int × List Int × List Quad × List Int × List Int) :=
  match ls with
  | [n, m, q] :: rest =>
      if 0 ≤ n ∧ 0 ≤ m ∧ 0 ≤ q then
        match readList parseNodeLine n.toNat rest with
        | none => none
        | some (ns, r1) =>
            match readList parseTriLine m.toNat r1 with
            | none => none
            | some (ts, r2) =>
                match readList parseIntLine m.toNat r2 with
                | none => none
                | some (cts, r3) =>
                    match readList parseIntLine m.toNat r3 with
                    | none => none
                    | some (bcts, r4) =>
                        match readList parseQuadLine q.toNat r4 with
                        | none => none
                        | some (qs, r5) =>
                            match readList parseIntLine q.toNat r5 with
                            | none => none
                            | some (cqs, r6) =>
                                match readList parseIntLine q.toNat r6 with
                                | none => none
                                | some (bcqs, r7) =>
                                    if r7 = [] then
                                      some (ns, ts, cts, bcts, qs, cqs, bcqs)
                                    else none
      else none
  | _ => none

theorem readSurf_surfLines (P : List Node) (T : List Tri) (CT BCT : List Int)
    (Q : List Quad) (CQ BCQ : List Int)
    (hct : CT.length = T.length) (hbct : BCT.length = T.length)
    (hcq : CQ.length = Q.length) (hbcq : BCQ.length = Q.length) :
    readSurf (surfLines P T CT BCT Q CQ BCQ) = some (P, T, CT, BCT, Q, CQ, BCQ) := by
  have h1 : readList parseNodeLine P.length
      (P.map nodeLine ++ (T.map triLine ++ (CT.map intLine ++ (BCT.map intLine ++
        (Q.map quadLine ++ (CQ.map intLine ++ BCQ.map intLine)))))) =
      some (P, T.map triLine ++ (CT.map intLine ++ (BCT.map intLine ++
        (Q.map quadLine ++ (CQ.map intLine ++ BCQ.map intLine))))) :=
    readList_map_append _ _ _ _ (fun a _ => parseNodeLine_nodeLine a)
  have h2 : readList parseTriLine T.length
      (T.map triLine ++ (CT.map intLine ++ (BCT.map intLine ++
        (Q.map quadLine ++ (CQ.map intLine ++ BCQ.map intLine))))) =
      some (T, CT.map intLine ++ (BCT.map intLine ++
        (Q.map quadLine ++ (CQ.map intLine ++ BCQ.map intLine)))) :=
    readList_map_append _ _ _ _ (fun a _ => parseTriLine_triLine a)
  have h3 : readList parseIntLine T.length
      (CT.map intLine ++ (BCT.map intLine ++
        (Q.map quadLine ++ (CQ.map intLine ++ BCQ.map intLine)))) =
      some (CT, BCT.map intLine ++
        (Q.map quadLine ++ (CQ.map intLine ++ BCQ.map intLine))) := by
    rw [← hct]
    exact readList_map_append _ _ _ _ (fun a _ => rfl)
  have h4 : readList parseIntLine T.length
      (BCT.map intLine ++ (Q.map quadLine ++ (CQ.map intLine ++ BCQ.map intLine))) =
      some (BCT, Q.map quadLine ++ (CQ.map intLine ++ BCQ.map intLine)) := by
    rw [← hbct]
    exact readList_map_append _ _ _ _ (fun a _ => rfl)
  have h5 : readList parseQuadLine Q.length
      (Q.map quadLine ++ (CQ.map intLine ++ BCQ.map intLine)) =
      some (Q, CQ.map intLine ++ BCQ.map intLine) :=
    readList_map_append _ _ _ _ (fun a _ => parseQuadLine_quadLine a)
  have h6 : readList parseIntLine Q.length (CQ.map intLine ++ BCQ.map intLine) =
      some (CQ, BCQ.map intLine) := by
    rw [← hcq]
    exact readList_map_append _ _ _ _ (fun a _ => rfl)
  have h7 : readList parseIntLine Q.length (BCQ.map intLine) = some (BCQ, []) := by
    rw [← hbcq]
    have h := readList_map_append parseIntLine intLine BCQ [] (fun a _ => rfl)
    simpa using h
  simp [readSurf, surfLines, h1, h2, h3, h4, h5, h6, h7]

/-- C3: if any of the four tag vectors has a length different from its
owning element count, `pc_WriteSurf` fails with `DimensionMismatch` and
returns no output lines at all — in this embedding validation precedes the
construction of any output, so the `Except.error` result carries no lines. -/
theorem C3_writeSurf_dimensionMismatch (P : List Node) (T : List Tri)
    (CT BCT : List Int) (Q : List Quad) (CQ BCQ : List Int)
    (h : CT.length ≠ T.length ∨ BCT.length ≠ T.length ∨
      CQ.length ≠ Q.length ∨ BCQ.length ≠ Q.length) :
    pc_WriteSurf P T CT BCT Q CQ BCQ = .error .dimensionMismatch := by
  rw [pc_WriteSurf, if_neg]
  intro hc
  rcases h with h | h | h | h
  · exact h hc.1
  · exact h hc.2.1
  · exact h hc.2.2.1
  · exact h hc.2.2.2

/-- Witness for C3: a triangle component-tag vector of length 1 against an
empty triangle set is rejected with `DimensionMismatch`. -/
theorem C3_writeSurf_dimensionMismatch_witness :
    (([(5 : Int)] : List Int).length ≠ ([] : List Tri).length ∨
        ([] : List Int).length ≠ ([] : List Tri).length ∨
        ([] : List Int).length ≠ ([] : List Quad).length ∨
        ([] : List Int).length ≠ ([] : List Quad).length) ∧
      pc_WriteSurf [] [] [(5 : Int)] [] [] [] [] = .error .dimensionMismatch := by
  exact ⟨by decide,
    C3_writeSurf_dimensionMismatch [] [] [(5 : Int)] [] [] [] [] (by decide)⟩

/-- C9: with `nQuad = 0` and all other invariants satisfied, `pc_WriteSurf`
succeeds; its header still carries the quad count 0, the quad connectivity,
quad component-ID and quad BC-flag sections are present as empty sections in
the same fixed block order, and the conforming reader `readSurf` — which
always expects all seven blocks — parses the output without special-casing. -/
theorem C9_writeSurf_emptyQuads (P : List Node) (T : List Tri) (CT BCT : List Int)
    (hct : CT.length = T.length) (hbct : BCT.length = T.length)
    (hT : trisValid P.length T) :
    pc_WriteSurf P T CT BCT [] [] [] = .ok (surfLines P T CT BCT [] [] []) ∧
      (surfLines P T CT BCT [] [] []).headD [] =
        [(P.length : Int), (T.length : Int), 0] ∧
      surfLines P T CT BCT [] [] [] =
        [[(P.length : Int), (T.length : Int), 0]] ++ P.map nodeLine ++ T.map triLine ++
          CT.map intLine ++ BCT.map intLine ++
          (([] : List Quad).map quadLine ++ ([] : List Int).map intLine ++
            ([] : List Int).map intLine) ∧
      readSurf (surfLines P T CT BCT [] [] []) = some (P, T, CT, BCT, [], [], []) := by
  refine ⟨?_, ?_, ?_, readSurf_surfLines P T CT BCT [] [] [] hct hbct rfl rfl⟩
  · rw [pc_WriteSurf, if_pos ⟨hct, hbct, rfl, rfl⟩,
      if_pos ⟨hT, by intro q hq; cases hq⟩]
  · simp [surfLines]
  · simp [surfLines]

/-- Witness for C9 on the unit-square mesh with tagged triangles and no
quads. -/
theorem C9_writeSurf_emptyQuads_witness :
    (([(1 : Int), 1] : List Int).length = ([((0:Nat),(1:Nat),(2:Nat)), (0,2,3)] : List Tri).length ∧
        ([(2 : Int), 2] : List Int).length = ([((0:Nat),(1:Nat),(2:Nat)), (0,2,3)] : List Tri).length ∧
        trisValid ([((0:Int),(0:Int),(0:Int)), (1,0,0), (1,1,0), (0,1,0)] : List Node).length
          [((0:Nat),(1:Nat),(2:Nat)), (0,2,3)]) ∧
      readSurf (surfLines [((0:Int),(0:Int),(0:Int)), (1,0,0), (1,1,0), (0,1,0)]
          [((0:Nat),(1:Nat),(2:Nat)), (0,2,3)] [(1 : Int), 1] [(2 : Int), 2] [] [] []) =
        some ([((0:Int),(0:Int),(0:Int)), (1,0,0), (1,1,0), (0,1,0)],
          [((0:Nat),(1:Nat),(2:Nat)), (0,2,3)], [(1 : Int), 1], [(2 : Int), 2], [], [], []) := by
  refine ⟨⟨by decide, by decide, by decide⟩, ?_⟩
  exact (C9_writeSurf_emptyQuads _ _ _ _ (by decide) (by decide) (by decide)).2.2.2

/-- The `.triq` layout of spec §4.3: the triangulation header, coordinate
and connectivity lines, then the component-ID section, then one line of `nq`
state values per node, in Node-set order. -/
def triqLines (P : List Node) (T : List Tri) (C : List Int) (Q : List Line) : List Line :=
  triAscLines P T ++ C.map intLine ++ Q

/-- Modelled from the spec: the body of `pc_WriteTriQ` is not in the fragment
(only its declaration and docstring in `pc_Tri.h`).  Per spec §4.3 it fails
with `DimensionMismatch` if the tag-vector length differs from `nTri` or the
state-matrix row count differs from `nNode`, and otherwise emits the `.triq`
layout.  A state-matrix row is modelled as the line of its values. -/
def pc_WriteTriQ (P : List Node) (T : List Tri) (C : List Int) (Q : List Line) :
    Except Err (List Line) :=
  if C.length = T.length ∧ Q.length = P.length then
    if trisValid P.length T then
      .ok (triqLines P T C Q)
    else
      .error .indexOutOfRange
  else
    .error .dimensionMismatch

/-- C6: for valid input, `pc_WriteTriQ` writes, in order, the triangulation
header/coordinates/connectivity, the component-ID section, and then exactly
`nNode` state lines; the state line at position `i` of the output equals row
`i` of the input state matrix (output row order equals Node-set order), and
each such line holds the `nq` state values of its row. -/
theorem C6_writeTriQ_layout (P : List Node) (T : List Tri) (C : List Int)
    (Q : List Line) (nq : Nat)
    (hc : C.length = T.length) (hq : Q.length = P.length)
    (hrow : ∀ r ∈ Q, r.length = nq) (hT : trisValid P.length T) :
    pc_WriteTriQ P T C Q = .ok (triqLines P T C Q) ∧
      triqLines P T C Q = triAscLines P T ++ C.map intLine ++ Q ∧
      Q.length = P.length ∧
      ∀ i, i < P.length →
        (triqLines P T C Q).getD (1 + P.length + 2 * T.length + i) [] = Q.getD i [] ∧
          (Q.getD i []).length = nq := by
  refine ⟨?_, rfl, hq, ?_⟩
  · rw [pc_WriteTriQ, if_pos ⟨hc, hq⟩, if_pos hT]
  · intro i hi
    have hiq : i < Q.length := by omega
    have hpre : (triAscLines P T ++ C.map intLine).length =
        1 + P.length + 2 * T.length := by
      simp [triAscLines, hc]
      omega
    constructor
    · have h := List.getD_append_right (triAscLines P T ++ C.map intLine) Q
        ([] : Line) (1 + P.length + 2 * T.length + i) (by omega)
      rw [triqLines, List.append_assoc, ← List.append_assoc, h, hpre]
      congr 1
      omega
    · rw [List.getD_eq_getElem Q [] hiq]
      exact hrow _ (Q.getElem_mem hiq)

/-- Witness for C6 on the unit-square mesh with a two-column state matrix. -/
theorem C6_writeTriQ_layout_witness :
    (([(1 : Int), 1] : List Int).length =
        ([((0:Nat),(1:Nat),(2:Nat)), (0,2,3)] : List Tri).length ∧
      ([[(10 : Int), 20], [11, 21], [12, 22], [13, 23]] : List Line).length =
        ([((0:Int),(0:Int),(0:Int)), (1,0,0), (1,1,0), (0,1,0)] : List Node).length ∧
      (∀ r ∈ ([[(10 : Int), 20], [11, 21], [12, 22], [13, 23]] : List Line), r.length = 2) ∧
      trisValid ([((0:Int),(0:Int),(0:Int)), (1,0,0), (1,1,0), (0,1,0)] : List Node).length
        [((0:Nat),(1:Nat),(2:Nat)), (0,2,3)]) ∧
      pc_WriteTriQ [((0:Int),(0:Int),(0:Int)), (1,0,0), (1,1,0), (0,1,0)]
          [((0:Nat),(1:Nat),(2:Nat)), (0,2,3)] [(1 : Int), 1]
          [[(10 : Int), 20], [11, 21], [12, 22], [13, 23]] =
        .ok (triqLines [((0:Int),(0:Int),(0:Int)), (1,0,0), (1,1,0), (0,1,0)]
          [((0:Nat),(1:Nat),(2:Nat)), (0,2,3)] [(1 : Int), 1]
          [[(10 : Int), 20], [11, 21], [12, 22], [13, 23]]) := by
  refine ⟨⟨by decide, by decide, by decide, by decide⟩, ?_⟩
  exact (C6_writeTriQ_layout _ _ _ _ 2 (by decide) (by decide) (by decide) (by decide)).1

/-- One STL facet record: the facet normal followed by the three vertex
coordinate triples (spec §4.5 — the STL format is not index-based). -/
structure Facet where
  nrm : Node
  v1 : Node
  v2 : Node
  v3 : Node
  deriving DecidableEq

/-- The all-zero node, used as the (never reached) lookup default. -/
def zeroNode : Node := (0, 0, 0)

/-- The all-zero facet, used as the (never reached) lookup default. -/
def zeroFacet : Facet := ⟨zeroNode, zeroNode, zeroNode, zeroNode⟩

/-- The facet records of the STL layout: one per triangle, in triangle
order, the vertex coordinates resolved through the triangle's node indices
in the triangle's own index order, the normal taken as given. -/
def stlFacets (P : List Node) (T : List Tri) (N : List Node) : List Facet :=
  (T.zip N).map fun tn =>
    ⟨tn.2, P.getD tn.1.1 zeroNode, P.getD tn.1.2.1 zeroNode, P.getD tn.1.2.2 zeroNode⟩

/-- Modelled from the spec: the body of `pc_WriteTriSTL` is not in the
fragment (only its declaration and docstring in `pc_Tri.h`).  Per spec §4.5
it fails with `DimensionMismatch` if the normal matrix row count differs
from `nTri`, and otherwise emits one facet record per triangle, resolving
node indices into coordinates and passing the normals through unmodified
(no renormalization, spec §4.5 design note). -/
def pc_WriteTriSTL (P : List Node) (T : List Tri) (N : List Node) :
    Except Err (List Facet) :=
  if N.length = T.length then
    if trisValid P.length T then
      .ok (stlFacets P T N)
    else
      .error .indexOutOfRange
  else
    .error .dimensionMismatch

/-- C7: for valid input, `pc_WriteTriSTL` emits exactly one facet record per
triangle; the record at position `j` carries the input normal `N[j]`
unmodified and the three node coordinates obtained by resolving triangle
`j`'s indices into the Node set, in the triangle's index order. -/
theorem C7_writeTriSTL_facets (P : List Node) (T : List Tri) (N : List Node)
    (hN : N.length = T.length) (hT : trisValid P.length T) :
    pc_WriteTriSTL P T N = .ok (stlFacets P T N) ∧
      (stlFacets P T N).length = T.length ∧
      ∀ j, j < T.length →
        (stlFacets P T N).getD j zeroFacet =
          ⟨N.getD j zeroNode,
            P.getD (T.getD j (0, 0, 0)).1 zeroNode,
            P.getD (T.getD j (0, 0, 0)).2.1 zeroNode,
            P.getD (T.getD j (0, 0, 0)).2.2 zeroNode⟩ := by
  have hzip : (T.zip N).length = T.length := by
    simp [List.length_zip, hN]
  have hlen : (stlFacets P T N).length = T.length := by
    simp [stlFacets, hzip]
  refine ⟨?_, hlen, ?_⟩
  · rw [pc_WriteTriSTL, if_pos hN, if_pos hT]
  · intro j hj
    have hjf : j < (stlFacets P T N).length := by omega
    have hjz : j < (T.zip N).length := by omega
    have hjN : j < N.length := by omega
    rw [List.getD_eq_getElem _ _ hjf, List.getD_eq_getElem N _ hjN,
      List.getD_eq_getElem T _ hj]
    simp only [stlFacets, List.getElem_map, List.getElem_zip]

/-- Witness for C7: one triangle over three nodes with an explicitly given
(unnormalized) normal. -/
theorem C7_writeTriSTL_facets_witness :
    (([((0:Int),(0:Int),(7:Int))] : List Node).length =
        ([((2:Nat),(0:Nat),(1:Nat))] : List Tri).length ∧
      trisValid ([((1:Int),(2:Int),(3:Int)), (4,5,6), (7,8,9)] : List Node).length
        [((2:Nat),(0:Nat),(1:Nat))]) ∧
      pc_WriteTriSTL [((1:Int),(2:Int),(3:Int)), (4,5,6), (7,8,9)]
          [((2:Nat),(0:Nat),(1:Nat))] [((0:Int),(0:Int),(7:Int))] =
        .ok (stlFacets [((1:Int),(2:Int),(3:Int)), (4,5,6), (7,8,9)]
          [((2:Nat),(0:Nat),(1:Nat))] [((0:Int),(0:Int),(7:Int))]) := by
  refine ⟨⟨by decide, by decide⟩, ?_⟩
  exact (C7_writeTriSTL_facets _ _ _ (by decide) (by decide)).1

/-- Little-endian byte image of a value, `w` bytes wide (the value is
truncated to `w` bytes, as a fixed-width binary write is). -/
def natToBytesLE : Nat → Nat → List Nat
  | 0, _ => []
  | w + 1, x => x % 256 :: natToBytesLE w (x / 256)

/-- Value of a little-endian byte list. -/
def bytesToNatLE : List Nat → Nat
  | [] => 0
  | b :: bs => b + 256 * bytesToNatLE bs

/-- The byte-order axis of the four binary variants (spec §4.6). -/
inductive ByteOrder where
  | le
  | be
  deriving DecidableEq

/-- Fixed-width binary image of one numeric field. -/
def encWord : ByteOrder → Nat → Nat → List Nat
  | .le, w, x => natToBytesLE w x
  | .be, w, x => (natToBytesLE w x).reverse

/-- Value of one fixed-width binary field. -/
def decWord : ByteOrder → List Nat → Nat
  | .le, bs => bytesToNatLE bs
  | .be, bs => bytesToNatLE bs.reverse

theorem length_natToBytesLE : ∀ w x, (natToBytesLE w x).length = w
  | 0, _ => rfl
  | w + 1, x => by simp [natToBytesLE, length_natToBytesLE w]

theorem bytesToNatLE_natToBytesLE : ∀ w x, x < 256 ^ w →
    bytesToNatLE (natToBytesLE w x) = x
  | 0, x, h => by
      interval_cases x
      rfl
  | w + 1, x, h => by
      have hdiv : x / 256 < 256 ^ w := by
        rw [Nat.div_lt_iff_lt_mul (by omega)]
        calc x < 256 ^ (w + 1) := h
        _ = 256 ^ w * 256 := by rw [pow_succ]
      rw [natToBytesLE, bytesToNatLE, bytesToNatLE_natToBytesLE w _ hdiv]
      omega

theorem length_encWord (bo : ByteOrder) (w x : Nat) : (encWord bo w x).length = w := by
  cases bo <;> simp [encWord, length_natToBytesLE]

theorem decWord_encWord (bo : ByteOrder) (w x : Nat) (h : x < 256 ^ w) :
    decWord bo (encWord bo w x) = x := by
  cases bo <;>
    simp [encWord, decWord, List.reverse_reverse, bytesToNatLE_natToBytesLE w x h]

/-- A node of the binary formats: the three coordinates as their
fixed-width bit patterns (IEEE-754 conversion is outside the embedding). -/
abbrev BinNode := Nat × Nat × Nat

/-- Binary record of one node: three `w`-byte float fields. -/
def encNodeW (bo : ByteOrder) (w : Nat) (p : BinNode) : List Nat :=
  encWord bo w p.1 ++ encWord bo w p.2.1 ++ encWord bo w p.2.2

/-- Binary record of one triangle: three 4-byte integer fields holding the
1-based node indices.  The 4-byte integer width is the documented choice
left open by spec §4.6/§9. -/
def encTriW (bo : ByteOrder) (t : Tri) : List Nat :=
  encWord bo 4 (t.1 + 1) ++ encWord bo 4 (t.2.1 + 1) ++ encWord bo 4 (t.2.2 + 1)

/-- Modelled from the spec: the bodies of the four binary variants
(`pc_WriteTri_b4/lb4/b8/lb8`, declared only in the method table of
`_capemodule.c`) are not in the fragment.  Per spec §4.6 all four share one
logical layout — a header record with `nNode` and `nTri`, the node
coordinate records, the triangle index records — differing only in float
width `w` and byte order `bo`. -/
def writeTriBin (bo : ByteOrder) (w : Nat) (P : List BinNode) (T : List Tri) :
    List Nat :=
  encWord bo 4 P.length ++ encWord bo 4 T.length ++
    (P.map (encNodeW bo w)).flatten ++ (T.map (encTriW bo)).flatten

/-- Big-endian, 4-byte single-precision variant. -/
def pc_WriteTri_b4 (P : List BinNode) (T : List Tri) : List Nat :=
  writeTriBin .be 4 P T

/-- Little-endian, 4-byte single-precision variant. -/
def pc_WriteTri_lb4 (P : List BinNode) (T : List Tri) : List Nat :=
  writeTriBin .le 4 P T

/-- Big-endian, 8-byte double-precision variant. -/
def pc_WriteTri_b8 (P : List BinNode) (T : List Tri) : List Nat :=
  writeTriBin .be 8 P T

/-- Little-endian, 8-byte double-precision variant. -/
def pc_WriteTri_lb8 (P : List BinNode) (T : List Tri) : List Nat :=
  writeTriBin .le 8 P T

/-- Consume one `w`-byte field from a byte stream. -/
def readWord (bo : ByteOrder) (w : Nat) (bs : List Nat) : Option (Nat × List Nat) :=
  if w ≤ bs.length then some (decWord bo (bs.take w), bs.drop w) else none

theorem readWord_encWord (bo : ByteOrder) (w x : Nat) (rest : List Nat)
    (h : x < 256 ^ w) :
    readWord bo w (encWord bo w x ++ rest) = some (x, rest) := by
  have hlen : (encWord bo w x).length = w := length_encWord bo w x
  have ht := List.take_left (encWord bo w x) rest
  have hd := List.drop_left (encWord bo w x) rest
  rw [hlen] at ht hd
  rw [readWord, if_pos (by simp [hlen]), ht, hd, decWord_encWord bo w x h]

/-- Consume one record of three fields, each `w` bytes wide. -/
def readTriple3 (bo : ByteOrder) (w : Nat) (bs : List Nat) :
    Option ((Nat × Nat × Nat) × List Nat) :=
  match readWord bo w bs with
  | none => none
  | some (a, r1) =>
      match readWord bo w r1 with
      | none => none
      | some (b, r2) =>
          match readWord bo w r2 with
          | none => none
          | some (c, r3) => some ((a, b, c), r3)

/-- Consume a counted run of three-field records. -/
def readTriples (bo : ByteOrder) (w : Nat) :
    Nat → List Nat → Option (List (Nat × Nat × Nat) × List Nat)
  | 0, bs => some ([], bs)
  | k + 1, bs =>
      match readTriple3 bo w bs with
      | none => none
      | some (t, r) =>
          match readTriples bo w k r with
          | none => none
          | some (ts, rest) => some (t :: ts, rest)

theorem readTriple3_enc (bo : ByteOrder) (w a b c : Nat) (rest : List Nat)
    (ha : a < 256 ^ w) (hb : b < 256 ^ w) (hc : c < 256 ^ w) :
    readTriple3 bo w ((encWord bo w a ++ encWord bo w b ++ encWord bo w c) ++ rest) =
      some ((a, b, c), rest) := by
  simp only [List.append_assoc, readTriple3, readWord_encWord bo w a _ ha,
    readWord_encWord bo w b _ hb, readWord_encWord bo w c _ hc]

theorem readTriples_map_append {α : Type} (bo : ByteOrder) (w : Nat)
    (f : α → List Nat) (g : α → Nat × Nat × Nat) :
    ∀ (A : List α) (rest : List Nat),
      (∀ a ∈ A, ∀ r : List Nat, readTriple3 bo w (f a ++ r) = some (g a, r)) →
      readTriples bo w A.length ((A.map f).flatten ++ rest) = some (A.map g, rest)
  | [], _, _ => rfl
  | a :: A, rest, h => by
      have ha := h a (by simp) ((A.map f).flatten ++ rest)
      have hA := readTriples_map_append bo w f g A rest
        (fun x hx => h x (by simp [hx]))
      simp only [List.map_cons, List.length_cons, List.flatten_cons, List.append_assoc]
      simp only [readTriples, ha, hA]

/-- A conforming reader for the binary triangulation layout of spec §4.6,
parameterized by the same width and byte-order axes as the writer. -/
def readTriBin (bo : ByteOrder) (w : Nat) (bs : List Nat) :
    Option (List BinNode × List Tri) :=
  match readWord bo 4 bs with
  | none => none
  | some (n, r1) =>
      match readWord bo 4 r1 with
      | none => none
      | some (m, r2) =>
          match readTriples bo w n r2 with
          | none => none
          | some (ps, r3) =>
              match readTriples bo 4 m r3 with
              | none => none
              | some (ts, r4) =>
                  if r4 = [] ∧ ∀ t ∈ ts, 1 ≤ t.1 ∧ 1 ≤ t.2.1 ∧ 1 ≤ t.2.2 then
                    some (ps, ts.map fun t => (t.1 - 1, t.2.1 - 1, t.2.2 - 1))
                  else none

theorem readTriBin_writeTriBin (bo : ByteOrder) (w : Nat)
    (P : List BinNode) (T : List Tri) (hT : trisValid P.length T)
    (hn : P.length < 256 ^ 4) (hm : T.length < 256 ^ 4)
    (hP : ∀ p ∈ P, p.1 < 256 ^ w ∧ p.2.1 < 256 ^ w ∧ p.2.2 < 256 ^ w) :
    readTriBin bo w (writeTriBin bo w P T) = some (P, T) := by
  have h1 : readWord bo 4 (encWord bo 4 P.length ++ (encWord bo 4 T.length ++
      ((P.map (encNodeW bo w)).flatten ++ (T.map (encTriW bo)).flatten))) =
      some (P.length, encWord bo 4 T.length ++
        ((P.map (encNodeW bo w)).flatten ++ (T.map (encTriW bo)).flatten)) :=
    readWord_encWord bo 4 _ _ hn
  have h2 : readWord bo 4 (encWord bo 4 T.length ++
      ((P.map (encNodeW bo w)).flatten ++ (T.map (encTriW bo)).flatten)) =
      some (T.length, (P.map (encNodeW bo w)).flatten ++ (T.map (encTriW bo)).flatten) :=
    readWord_encWord bo 4 _ _ hm
  have h3 : readTriples bo w P.length
      ((P.map (encNodeW bo w)).flatten ++ (T.map (encTriW bo)).flatten) =
      some (P.map id, (T.map (encTriW bo)).flatten) := by
    refine readTriples_map_append bo w (encNodeW bo w) id P _ ?_
    intro p hp r
    obtain ⟨h1', h2', h3'⟩ := hP p hp
    have h := readTriple3_enc bo w p.1 p.2.1 p.2.2 r h1' h2' h3'
    exact h
  have h4 : readTriples bo 4 T.length ((T.map (encTriW bo)).flatten ++ []) =
      some (T.map (fun t => (t.1 + 1, t.2.1 + 1, t.2.2 + 1)), []) := by
    refine readTriples_map_append bo 4 (encTriW bo)
      (fun t => (t.1 + 1, t.2.1 + 1, t.2.2 + 1)) T [] ?_
    intro t ht r
    obtain ⟨h1', h2', h3'⟩ := hT t ht
    exact readTriple3_enc bo 4 (t.1 + 1) (t.2.1 + 1) (t.2.2 + 1) r
      (by omega) (by omega) (by omega)
  have h4' : readTriples bo 4 T.length ((T.map (encTriW bo)).flatten) =
      some (T.map (fun t => (t.1 + 1, t.2.1 + 1, t.2.2 + 1)), []) := by
    simpa using h4
  have hpos : ∀ t ∈ T.map (fun t => (t.1 + 1, t.2.1 + 1, t.2.2 + 1)),
      1 ≤ t.1 ∧ 1 ≤ t.2.1 ∧ 1 ≤ t.2.2 := by
    intro t ht
    obtain ⟨u, _, rfl⟩ := List.mem_map.mp ht
    simp
  have hmap : (T.map (fun t => (t.1 + 1, t.2.1 + 1, t.2.2 + 1))).map
      (fun t => (t.1 - 1, t.2.1 - 1, t.2.2 - 1)) = T := by
    rw [List.map_map]
    have hco : ((fun t : Tri => (t.1 - 1, t.2.1 - 1, t.2.2 - 1)) ∘
        fun t : Tri => (t.1 + 1, t.2.1 + 1, t.2.2 + 1)) = id := by
      funext t
      simp
    rw [hco, List.map_id]
  rw [writeTriBin]
  simp only [List.append_assoc]
  simp only [readTriBin, h1, h2, h3, h4']
  rw [if_pos ⟨by trivial, hpos⟩, hmap]
  simp

/-- C5: all four binary variants share the logical layout of spec §4.6 —
header with `nNode` and `nTri`, node coordinate records, triangle index
records, differing only in the width/byte-order parameters — and for every
valid mesh, decoding each variant's byte output with the matching width and
byte order recovers the original coordinate bit patterns and (0-based)
triangle indices. -/
theorem C5_binary_variants_roundTrip (P : List BinNode) (T : List Tri)
    (hT : trisValid P.length T)
    (hn : P.length < 256 ^ 4) (hm : T.length < 256 ^ 4)
    (h8 : ∀ p ∈ P, p.1 < 256 ^ 8 ∧ p.2.1 < 256 ^ 8 ∧ p.2.2 < 256 ^ 8) :
    (∀ (bo : ByteOrder) (w : Nat), writeTriBin bo w P T =
      encWord bo 4 P.length ++ encWord bo 4 T.length ++
        (P.map (encNodeW bo w)).flatten ++ (T.map (encTriW bo)).flatten) ∧
      readTriBin .be 8 (pc_WriteTri_b8 P T) = some (P, T) ∧
      readTriBin .le 8 (pc_WriteTri_lb8 P T) = some (P, T) ∧
      ((∀ p ∈ P, p.1 < 256 ^ 4 ∧ p.2.1 < 256 ^ 4 ∧ p.2.2 < 256 ^ 4) →
        readTriBin .be 4 (pc_WriteTri_b4 P T) = some (P, T) ∧
          readTriBin .le 4 (pc_WriteTri_lb4 P T) = some (P, T)) := by
  refine ⟨fun _ _ => rfl, ?_, ?_, fun h4 => ⟨?_, ?_⟩⟩
  · exact readTriBin_writeTriBin .be 8 P T hT hn hm h8
  · exact readTriBin_writeTriBin .le 8 P T hT hn hm h8
  · exact readTriBin_writeTriBin .be 4 P T hT hn hm h4
  · exact readTriBin_writeTriBin .le 4 P T hT hn hm h4

/-- Witness for C5 on the unit-square sample mesh of spec §8 (coordinate
bit patterns `0` and `1`): all four width-by-endianness variants decode back
to the inputs. -/
theorem C5_binary_variants_roundTrip_witness :
    (trisValid ([((0:Nat),(0:Nat),(0:Nat)), (1,0,0), (1,1,0), (0,1,0)] : List BinNode).length
        [((0:Nat),(1:Nat),(2:Nat)), (0,2,3)] ∧
      ([((0:Nat),(0:Nat),(0:Nat)), (1,0,0), (1,1,0), (0,1,0)] : List BinNode).length < 256 ^ 4 ∧
      ([((0:Nat),(1:Nat),(2:Nat)), (0,2,3)] : List Tri).length < 256 ^ 4) ∧
      readTriBin .be 8 (pc_WriteTri_b8 [((0:Nat),(0:Nat),(0:Nat)), (1,0,0), (1,1,0), (0,1,0)]
          [((0:Nat),(1:Nat),(2:Nat)), (0,2,3)]) =
        some ([((0:Nat),(0:Nat),(0:Nat)), (1,0,0), (1,1,0), (0,1,0)],
          [((0:Nat),(1:Nat),(2:Nat)), (0,2,3)]) ∧
      readTriBin .le 8 (pc_WriteTri_lb8 [((0:Nat),(0:Nat),(0:Nat)), (1,0,0), (1,1,0), (0,1,0)]
          [((0:Nat),(1:Nat),(2:Nat)), (0,2,3)]) =
        some ([((0:Nat),(0:Nat),(0:Nat)), (1,0,0), (1,1,0), (0,1,0)],
          [((0:Nat),(1:Nat),(2:Nat)), (0,2,3)]) ∧
      readTriBin .be 4 (pc_WriteTri_b4 [((0:Nat),(0:Nat),(0:Nat)), (1,0,0), (1,1,0), (0,1,0)]
          [((0:Nat),(1:Nat),(2:Nat)), (0,2,3)]) =
        some ([((0:Nat),(0:Nat),(0:Nat)), (1,0,0), (1,1,0), (0,1,0)],
          [((0:Nat),(1:Nat),(2:Nat)), (0,2,3)]) ∧
      readTriBin .le 4 (pc_WriteTri_lb4 [((0:Nat),(0:Nat),(0:Nat)), (1,0,0), (1,1,0), (0,1,0)]
          [((0:Nat),(1:Nat),(2:Nat)), (0,2,3)]) =
        some ([((0:Nat),(0:Nat),(0:Nat)), (1,0,0), (1,1,0), (0,1,0)],
          [((0:Nat),(1:Nat),(2:Nat)), (0,2,3)]) := by
  refine ⟨⟨by decide, by decide, by decide⟩, ?_, ?_, ?_, ?_⟩
  · exact (C5_binary_variants_roundTrip _ _ (by decide) (by decide) (by decide)
      (by decide)).2.1
  · exact (C5_binary_variants_roundTrip _ _ (by decide) (by decide) (by decide)
      (by decide)).2.2.1
  · exact ((C5_binary_variants_roundTrip _ _ (by decide) (by decide) (by decide)
      (by decide)).2.2.2 (by decide)).1
  · exact ((C5_binary_variants_roundTrip _ _ (by decide) (by decide) (by decide)
      (by decide)).2.2.2 (by decide)).2

/-- Does `pat` lead the list `s`? -/
def leadsWith : List Char → List Char → Bool
  | [], _ => true
  | _ :: _, [] => false
  | p :: ps, c :: cs => p == c && leadsWith ps cs

/-- The suffix of `s` after the first occurrence of `pat` (empty if absent). -/
def afterPat (pat : List Char) : List Char → List Char
  | [] => []
  | c :: rest =>
      if leadsWith pat (c :: rest) then (c :: rest).drop pat.length
      else afterPat pat rest

/-- The part of `s` before the first occurrence of `pat` (all of `s` if
absent). -/
def beforePat (pat : List Char) : List Char → List Char
  | [] => []
  | c :: rest =>
      if leadsWith pat (c :: rest) then []
      else c :: beforePat pat rest

/-- The suffix after the first occurrence of the character `ch`. -/
def afterChar (ch : Char) : List Char → List Char
  | [] => []
  | c :: rest => if c = ch then rest else afterChar ch rest

/-- The part before the first occurrence of the character `ch`. -/
def beforeChar (ch : Char) : List Char → List Char
  | [] => []
  | c :: rest => if c = ch then [] else c :: beforeChar ch rest

/-- Split a character list at commas. -/
def splitComma : List Char → List (List Char)
  | [] => [[]]
  | c :: rest =>
      if c = ',' then [] :: splitComma rest
      else
        match splitComma rest with
        | [] => [[c]]
        | g :: gs => (c :: g) :: gs

/-- Strip leading and trailing blanks. -/
def trimSp (s : List Char) : List Char :=
  ((s.dropWhile (fun c => c == ' ')).reverse.dropWhile (fun c => c == ' ')).reverse

/-- The positional argument names of a docstring `:Call:` line: the
comma-separated tokens between the parentheses. -/
def callArgs (call : String) : List (List Char) :=
  (splitComma (beforeChar ')' (afterChar '(' call.data))).map trimSp

/-- The `:Call:` line of `doc_WriteSurf`, embedded verbatim from
`pc_Tri.h` line 59. -/
def doc_WriteSurf_call : String :=
  ">>> pc_WriteSurf(P, blds, bldel, T, CT, BCT, Q, CQ, BCQ)"

/-- C2, counterexample: the call signature of `pc_WriteSurf` in `pc_Tri.h`
is not the seven-array list (P, T, CT, BCT, Q, CQ, BCQ) of the claim — it
has nine positional arguments. -/
theorem C2_surf_args_counterexample :
    callArgs doc_WriteSurf_call ≠
      (["P", "T", "CT", "BCT", "Q", "CQ", "BCQ"] : List String).map String.data ∧
      (callArgs doc_WriteSurf_call).length = 9 := by
  decide

/-- C2, amended: the Mixed-Element Surface Encoder's call signature is the
nine-argument list (P, blds, bldel, T, CT, BCT, Q, CQ, BCQ) — the claim's
seven arrays plus the per-node arrays `blds` and `bldel` between the node
matrix and the triangle connectivity. -/
theorem C2_surf_args_amended :
    callArgs doc_WriteSurf_call =
      (["P", "blds", "bldel", "T", "CT", "BCT", "Q", "CQ", "BCQ"] : List String).map
        String.data := by
  decide

/-- Element dtype of a docstring array declaration. -/
inductive DType where
  | int
  | float
  deriving DecidableEq

/-- One array-argument declaration of a docstring `:Inputs:` section. -/
structure ArgDecl where
  name : List Char
  dtype : DType
  shape : List (List Char)

/-- The `P` declaration of `doc_WriteTriSTL` (`pc_Tri.h` lines 86-87):
`numpy.ndarray (float) (nNode, 3)`. -/
def doc_WriteTriSTL_P : ArgDecl := ⟨"P".data, .float, ["nNode".data, "3".data]⟩

/-- The `T` declaration of `doc_WriteTriSTL` (`pc_Tri.h` lines 88-89):
`numpy.ndarray (int) (nTri, 3)`. -/
def doc_WriteTriSTL_T : ArgDecl := ⟨"T".data, .int, ["nTri".data, "3".data]⟩

/-- The `N` declaration of `doc_WriteTriSTL` (`pc_Tri.h` lines 90-91):
`numpy.ndarray (int) (nTri, 3)`, described as "Vector of triangle
normals". -/
def doc_WriteTriSTL_N : ArgDecl := ⟨"N".data, .int, ["nTri".data, "3".data]⟩

/-- C8: the docstring declares the per-triangle normal matrix `N` with
shape (nTri, 3) but with `int` element dtype, not `float` — although a
matrix of triangle normals is float-valued (spec §3) and the node matrix
`P` is declared `float`; the `int` dtype of `N` is a documentation slip. -/
theorem C8_stl_normal_dtype :
    doc_WriteTriSTL_N.dtype = DType.int ∧
      doc_WriteTriSTL_N.dtype ≠ DType.float ∧
      doc_WriteTriSTL_N.shape = ["nTri".data, "3".data] ∧
      doc_WriteTriSTL_P.dtype = DType.float := by
  refine ⟨rfl, ?_, rfl, rfl⟩
  decide

/-- First docstring line of `doc_WriteTri` (`pc_Tri.h` line 7). -/
def doc_WriteTri_line1 : String :=
  "Write a Cart3D triangulation to :file:`Components.pyCart.tri` file"

/-- First docstring line of `doc_WriteCompID` (`pc_Tri.h` line 23). -/
def doc_WriteCompID_line1 : String :=
  "Write component ID numbers to :file:`Components.pyCart.tri`"

/-- First docstring line of `doc_WriteTriQ` (`pc_Tri.h` line 37). -/
def doc_WriteTriQ_line1 : String :=
  "Write ``.triq`` file to :file:`Components.pyCart.tri`"

/-- The destination file a docstring names: the text of its
reStructuredText file reference. -/
def destOf (doc : String) : List Char :=
  beforePat "`".data (afterPat ":file:`".data doc.data)

/-- C10: `pc_WriteTri`, `pc_WriteCompID` and `pc_WriteTriQ` all name the
same fixed destination file `Components.pyCart.tri` — in particular the
`.triq`-format output of `pc_WriteTriQ` goes to a `.tri`-named file, so a
`WriteTriQ` call and a `WriteTri` call address the same destination. -/
theorem C10_fixed_destination :
    destOf doc_WriteTri_line1 = "Components.pyCart.tri".data ∧
      destOf doc_WriteCompID_line1 = destOf doc_WriteTri_line1 ∧
      destOf doc_WriteTriQ_line1 = destOf doc_WriteTri_line1 := by
  decide

end Cape
